import Mathlib

/-!
Shallow embedding of the Kataribe core runtime
(`packages/core/src/runtime.ts` and `packages/core/src/utils.ts`,
types from `packages/core/src/types.ts`).

The runtime mediates bidirectional RPC and event envelopes between two
peers over a message-framed transport.  JavaScript side effects (calls to
`transport.send`, promise resolution and rejection of pending RPC callers,
timer clearing, logging, user-handler invocation) are made explicit as an
`Effect` list returned alongside the successor state.  A thrown JavaScript
value is modelled by the `Thrown` type; an async function body that may
throw becomes `Except Thrown`.  An uncaught exception escaping the
`transport.onMessage` callback is reported in the third component of the
dispatch result (the source has no try/catch around the dispatch switch).

JavaScript `Map`s are modelled as association lists with `Map.set`
replace-in-place semantics (`mapSet`), and JavaScript `Set`s of event
handlers as duplicate-free lists in insertion order (`addHandler`).
String falsiness (`if (!method)`) covers both the absent and the empty
string case, and is translated as a `none` match plus an `= ""` test.
-/

namespace Kataribe

/-- JSON-like payload values carried in an envelope's `p` field.  The core
never inspects payloads structurally, so a small closed universe suffices. -/
inductive Val where
  | vnull : Val
  | vbool : Bool → Val
  | vnum : Int → Val
  | vstr : String → Val
deriving DecidableEq, Repr

/-- A thrown JavaScript value: either an `Error` instance carrying a
message, or any other value (`throw "x"`, `throw 42`, ...). -/
inductive Thrown where
  | error : String → Thrown
  | nonError : Val → Thrown
deriving DecidableEq, Repr

/-- Translation of `e instanceof Error ? e.message : "RPC Error"` at the `rpc_err`
construction sites in `runtime.ts`. -/
def errMessage : Thrown → String
  | .error msg => msg
  | .nonError _ => "RPC Error"

/-- The `kind` discriminant of an envelope. -/
inductive Kind where
  | rpc_req : Kind
  | rpc_res : Kind
  | rpc_err : Kind
  | event : Kind
  | hello : Kind
deriving DecidableEq, Repr

/-- The wire envelope (`types.ts`, `interface Envelope`).  Optional fields
are `Option`s; an absent field is `none`. -/
structure Envelope where
  v : Nat
  ts : Nat
  kind : Kind
  id : Option String := none
  ch : Option String := none
  p : Option Val := none
  m : Option String := none
  code : Option String := none
  feat : Option (List String) := none
deriving DecidableEq, Repr

/-- Direction tag handed to middleware (`"out" | "in"`). -/
inductive Dir where
  | out : Dir
  | inb : Dir
deriving DecidableEq, Repr

/-- A middleware observes the direction and the envelope and either lets
the (possibly mutated) envelope continue or throws. -/
abbrev Middleware := Dir → Envelope → Except Thrown Envelope

/-- Embedding of `runMiddlewares` (`utils.ts`): runs the hooks sequentially, awaiting
each; a throw aborts the chain.  Mutation through the shared context is
modelled by the middleware returning the updated envelope. -/
def runMiddlewares (mws : List Middleware) (env : Envelope) (dir : Dir) :
    Except Thrown Envelope :=
  match mws with
  | [] => .ok env
  | mw :: rest =>
    match mw dir env with
    | .ok env2 => runMiddlewares rest env2 dir
    | .error t => .error t

/-- Embedding of `makeBaseEnvelope` (`utils.ts`): a minimal envelope stamped with the
configured version and the current wall-clock reading `now`. -/
def makeBaseEnvelope (kind : Kind) (version : Nat) (now : Nat) : Envelope :=
  { v := version, ts := now, kind := kind }

/-- Outcome of a Standard-Schema `validate` call: either the issues array
(possibly empty, which the source still treats as a failure because an
empty array is truthy) or the validated output value. -/
inductive SchemaOutcome where
  | issues : List String → SchemaOutcome
  | value : Option Val → SchemaOutcome

/-- A Standard-Schema validator (`~standard` contract). -/
structure StdSchema where
  vendor : String
  validate : Option Val → SchemaOutcome

/-- Embedding of `formatStandardSchemaIssues` (`utils.ts`) restricted to path-less
issues: the messages joined by "; ". -/
def formatIssues (msgs : List String) : String :=
  String.intercalate "; " msgs

/-- Embedding of `validateWithStandardSchema` (`utils.ts`): throws a
`StandardSchemaValidationError` when the schema reports issues. -/
def validateWithStandardSchema (s : StdSchema) (value : Option Val) :
    Except Thrown (Option Val) :=
  match s.validate value with
  | .value v2 => .ok v2
  | .issues msgs =>
    .error (.error (if msgs.isEmpty then
      "Standard schema validation failed (" ++ s.vendor ++ ")."
    else
      "Standard schema validation failed (" ++ s.vendor ++ "): " ++ formatIssues msgs))

/-- A function validator (`validateReq` / `validateRes` / `validate` in a
descriptor): returns the validated value or throws. -/
abbrev FnValidator := Option Val → Except Thrown (Option Val)

/-- An RPC descriptor's validator slots (`types.ts`, `RpcDescriptor`). -/
structure RpcDescriptor where
  validateReq : Option FnValidator := none
  schemaReq : Option StdSchema := none
  validateRes : Option FnValidator := none
  schemaRes : Option StdSchema := none

/-- An event descriptor's validator slots (`types.ts`, `EventDescriptor`). -/
structure EventDescriptor where
  validate : Option FnValidator := none
  schema : Option StdSchema := none

/-- Embedding of `applyRpcRequestValidation` (`runtime.ts` lines 38-49). -/
def applyRpcRequestValidation (d : RpcDescriptor) (value : Option Val) :
    Except Thrown (Option Val) :=
  match d.validateReq with
  | some f => f value
  | none =>
    match d.schemaReq with
    | some s => validateWithStandardSchema s value
    | none => .ok value

/-- Embedding of `applyRpcResponseValidation` (`runtime.ts` lines 54-65). -/
def applyRpcResponseValidation (d : RpcDescriptor) (value : Option Val) :
    Except Thrown (Option Val) :=
  match d.validateRes with
  | some f => f value
  | none =>
    match d.schemaRes with
    | some s => validateWithStandardSchema s value
    | none => .ok value

/-- Embedding of `applyEventValidation` (`runtime.ts` lines 70-81). -/
def applyEventValidation (d : EventDescriptor) (value : Option Val) :
    Except Thrown (Option Val) :=
  match d.validate with
  | some f => f value
  | none =>
    match d.schema with
    | some s => validateWithStandardSchema s value
    | none => .ok value

/-- JavaScript `Map.get`. -/
def mapGet {α : Type} (m : List (String × α)) (k : String) : Option α :=
  match m with
  | [] => none
  | (k2, v) :: rest => if k2 = k then some v else mapGet rest k

/-- JavaScript `Map.set`: replaces in place when the key exists, appends otherwise. -/
def mapSet {α : Type} (m : List (String × α)) (k : String) (v : α) :
    List (String × α) :=
  match m with
  | [] => [(k, v)]
  | (k2, v2) :: rest => if k2 = k then (k, v) :: rest else (k2, v2) :: mapSet rest k v

/-- JavaScript `Map.delete`. -/
def mapDelete {α : Type} (m : List (String × α)) (k : String) :
    List (String × α) :=
  match m with
  | [] => []
  | (k2, v) :: rest => if k2 = k then rest else (k2, v) :: mapDelete rest k

/-- Embedding of `PendingEntry` (`runtime.ts` lines 29-33): the resolver and rejecter
become `resolveCaller` / `rejectCaller` effects; only the presence of the
timer handle is state. -/
structure PendingEntry where
  hasTimer : Bool
deriving DecidableEq, Repr

/-- The pending-call table: correlation id to pending entry. -/
abbrev Pending := List (String × PendingEntry)

/-- The observable side effects of a runtime operation, in order. -/
inductive Effect where
  | send : Envelope → Effect
  | closeTransport : Effect
  | resolveCaller : String → Option Val → Effect
  | rejectCaller : String → Thrown → Effect
  | clearTimer : String → Effect
  | logError : String → Effect
  | logDebug : String → Effect
  | invokeRpc : String → Option Val → Effect
  | invokeEvent : Nat → Option Val → Effect
  | invokeServerEvent : String → Option Val → Effect
deriving DecidableEq, Repr

/-- An RPC handler implementation: receives the validated request payload
and returns the response payload or throws. -/
abbrev RpcImpl := Option Val → Except Thrown (Option Val)

/-- A server-side event handler from `handlers.events`. -/
abbrev EvImpl := Option Val → Except Thrown Unit

/-- Static configuration of a runtime: the contract, the registered
handler implementations, and the `RuntimeOptions` fields the core reads.
Client-side event subscriber behaviour is looked up by the numeric
handler identity stored in the subscription sets. -/
structure Config where
  version : Nat := 1
  timeoutMs : Nat := 0
  middlewares : List Middleware := []
  rpcToServer : List (String × RpcDescriptor) := []
  rpcToClient : List (String × RpcDescriptor) := []
  events : List (String × EventDescriptor) := []
  handlersRpcToClient : List (String × RpcImpl) := []
  handlersRpcToServer : List (String × RpcImpl) := []
  serverEventHandlers : List (String × EvImpl) := []
  eventHandlerBehavior : Nat → Option Val → Except Thrown Unit := fun _ _ => .ok ()

/-- Client runtime state: the pending-call table and the event-handler
subscription map (`Map<string, Set<handler>>`), with a handler identified
by a `Nat`. -/
structure ClientState where
  pending : Pending := []
  eventHandlers : List (String × List Nat) := []
deriving Repr

/-- Server per-connection state: its own pending-call table. -/
structure ServerConnState where
  pending : Pending := []
deriving DecidableEq, Repr

/-- The `catch` block of the async send flow inside `buildRpcCaller`
(`runtime.ts` lines 128-137): looks the id up again, clears the timer,
removes the entry, rejects the caller. -/
def rpcCatch (pending : Pending) (id : String) (t : Thrown) :
    Pending × List Effect :=
  match mapGet pending id with
  | none => (pending, [])
  | some entry =>
    (mapDelete pending id,
     (if entry.hasTimer then [Effect.clearTimer id] else []) ++
       [Effect.rejectCaller id t])

/-- One outbound RPC call from the caller record built by `buildRpcCaller`
(`runtime.ts` lines 106-142): arm the timer when `options.timeoutMs` is
truthy, register the pending entry, then validate the request, run the
outbound middleware and hand the envelope to `transport.send`; any throw
along the way lands in `rpcCatch`. -/
def rpcCall (cfg : Config) (d : RpcDescriptor) (method id : String)
    (now : Nat) (req : Option Val) (pending : Pending) :
    Pending × List Effect :=
  let hasTimer : Bool := cfg.timeoutMs != 0
  let pending1 := mapSet pending id ⟨hasTimer⟩
  match applyRpcRequestValidation d req with
  | .error t => rpcCatch pending1 id t
  | .ok validated =>
    let env := { makeBaseEnvelope .rpc_req cfg.version now with
      id := some id, ch := some method, p := validated }
    match runMiddlewares cfg.middlewares env .out with
    | .error t => rpcCatch pending1 id t
    | .ok env2 => (pending1, [Effect.send env2])

/-- The `setTimeout` callback armed by `buildRpcCaller` (`runtime.ts`
lines 115-118): deletes the pending entry and rejects the caller with a
timeout error naming the method. -/
def fireTimeout (pending : Pending) (id method : String) :
    Pending × List Effect :=
  (mapDelete pending id,
   [Effect.rejectCaller id (.error ("RPC Timeout: " ++ method))])

/-- One event emission from `buildEmitters` (`runtime.ts` lines 291-315):
validate, build the envelope, run outbound middleware, send; every throw
is logged as "emit error" and swallowed. -/
def emitEvent (cfg : Config) (d : EventDescriptor) (name : String)
    (now : Nat) (payload : Option Val) : List Effect :=
  match applyEventValidation d payload with
  | .error _ => [Effect.logError "emit error"]
  | .ok validated =>
    let env := { makeBaseEnvelope .event cfg.version now with
      ch := some name, p := validated }
    match runMiddlewares cfg.middlewares env .out with
    | .error _ => [Effect.logError "emit error"]
    | .ok env2 => [Effect.send env2]

/-- The initial `hello` envelope sent on runtime construction
(`runtime.ts` lines 172-175 and 412-415). -/
def sendHello (cfg : Config) (now : Nat) (feat : Option (List String)) :
    List Effect :=
  [Effect.send { makeBaseEnvelope .hello cfg.version now with feat := feat }]

/-- The shared `rpc_res` / `rpc_err` dispatch case (`runtime.ts` lines
186-197 and 487-498): settle the pending entry for the envelope's id if
there is one, clear its timer, remove it; otherwise drop silently. -/
def handleSettle (pending : Pending) (env : Envelope) :
    Pending × List Effect :=
  match env.id with
  | none => (pending, [])
  | some i =>
    if i = "" then (pending, [])
    else
      match mapGet pending i with
      | none => (pending, [])
      | some entry =>
        (mapDelete pending i,
         (if env.kind = .rpc_res then Effect.resolveCaller i env.p
          else Effect.rejectCaller i (.error (env.m.getD "RPC Error"))) ::
           (if entry.hasTimer then [Effect.clearTimer i] else []))

/-- The `catch` block of the inbound `rpc_req` case (`runtime.ts` lines
232-241 and 475-484): build an `rpc_err` without a `code`, run outbound
middleware over it, send it.  A throw from that middleware escapes the
message callback. -/
def rpcErrReply (mws : List Middleware) (version now : Nat)
    (env : Envelope) (method : String) (t : Thrown) (pre : List Effect) :
    List Effect × Option Thrown :=
  let errEnv := { makeBaseEnvelope .rpc_err version now with
    id := env.id, ch := some method, m := some (errMessage t) }
  match runMiddlewares mws errEnv .out with
  | .error t2 => (pre, some t2)
  | .ok env2 => (pre ++ [Effect.send env2], none)

/-- The `try` block of the inbound `rpc_req` case (`runtime.ts` lines
219-241 and 456-484): request validation, handler invocation, response
validation, outbound middleware over the `rpc_res`, send; any throw is
answered through `rpcErrReply`. -/
def rpcServe (d : RpcDescriptor) (impl : RpcImpl) (mws : List Middleware)
    (version now : Nat) (env : Envelope) (method : String) :
    List Effect × Option Thrown :=
  match applyRpcRequestValidation d env.p with
  | .error t => rpcErrReply mws version now env method t []
  | .ok reqPayload =>
    match impl reqPayload with
    | .error t =>
      rpcErrReply mws version now env method t [Effect.invokeRpc method reqPayload]
    | .ok res =>
      match applyRpcResponseValidation d res with
      | .error t =>
        rpcErrReply mws version now env method t [Effect.invokeRpc method reqPayload]
      | .ok resPayload =>
        let resEnv := { makeBaseEnvelope .rpc_res version now with
          id := env.id, ch := some method, p := resPayload }
        match runMiddlewares mws resEnv .out with
        | .error t =>
          rpcErrReply mws version now env method t [Effect.invokeRpc method reqPayload]
        | .ok env2 =>
          ([Effect.invokeRpc method reqPayload, Effect.send env2], none)

/-- The inbound `rpc_req` dispatch case, shared by both runtimes
(`runtime.ts` lines 199-242 client, 436-485 server): drop when `ch` is
falsy; reply `NOT_FOUND` when the descriptor or the implementation is
missing; otherwise serve. -/
def handleRpcReq (defs : List (String × RpcDescriptor))
    (impls : List (String × RpcImpl)) (notFoundMsg : String → String)
    (mws : List Middleware) (version now : Nat) (env : Envelope) :
    List Effect × Option Thrown :=
  match env.ch with
  | none => ([], none)
  | some method =>
    if method = "" then ([], none)
    else
      match mapGet defs method, mapGet impls method with
      | some d, some impl => rpcServe d impl mws version now env method
      | _, _ =>
        let errEnv := { makeBaseEnvelope .rpc_err version now with
          id := env.id, ch := some method,
          m := some (notFoundMsg method), code := some "NOT_FOUND" }
        match runMiddlewares mws errEnv .out with
        | .error t => ([], some t)
        | .ok env2 => ([Effect.send env2], none)

/-- Inbound event payload validation (`runtime.ts` lines 248-257 and
506-515): no descriptor passes the raw payload through; a descriptor's
validation failure suppresses dispatch. -/
def eventPayload (events : List (String × EventDescriptor)) (c : String)
    (p : Option Val) : Except Thrown (Option Val) :=
  match mapGet events c with
  | none => .ok p
  | some d => applyEventValidation d p

/-- The client's inbound `event` dispatch case (`runtime.ts` lines
244-266): every subscriber of the channel runs in insertion order, a
handler throw is logged and contained. -/
def clientHandleEvent (cfg : Config) (st : ClientState) (env : Envelope) :
    List Effect :=
  match env.ch with
  | none => []
  | some c =>
    if c = "" then []
    else
      match mapGet st.eventHandlers c with
      | none => []
      | some hs =>
        match eventPayload cfg.events c env.p with
        | .error _ => [Effect.logError "event validation error"]
        | .ok payload =>
          hs.flatMap fun h =>
            Effect.invokeEvent h payload ::
              (match cfg.eventHandlerBehavior h payload with
               | .ok _ => []
               | .error _ => [Effect.logError "event handler error"])

/-- The server's inbound `event` dispatch case (`runtime.ts` lines
500-523): at most one handler per channel, supplied at construction. -/
def serverHandleEvent (cfg : Config) (env : Envelope) : List Effect :=
  match env.ch with
  | none => []
  | some c =>
    if c = "" then []
    else
      match mapGet cfg.serverEventHandlers c with
      | none => []
      | some h =>
        match eventPayload cfg.events c env.p with
        | .error _ => [Effect.logError "event validation error"]
        | .ok payload =>
          Effect.invokeServerEvent c payload ::
            (match h payload with
             | .ok _ => []
             | .error _ => [Effect.logError "event handler error"])

/-- The client's `transport.onMessage` callback (`runtime.ts` lines
177-273).  `raw = none` stands for input that failed the parse or
object check; the third component carries an exception that escaped the
callback (the source has no surrounding try/catch). -/
def clientOnMessage (cfg : Config) (st : ClientState) (now : Nat)
    (raw : Option Envelope) : ClientState × List Effect × Option Thrown :=
  match raw with
  | none => (st, [], none)
  | some env0 =>
    match runMiddlewares cfg.middlewares env0 .inb with
    | .error t => (st, [], some t)
    | .ok env =>
      match env.kind with
      | .rpc_res =>
        let r := handleSettle st.pending env
        ({ st with pending := r.1 }, r.2, none)
      | .rpc_err =>
        let r := handleSettle st.pending env
        ({ st with pending := r.1 }, r.2, none)
      | .rpc_req =>
        let r := handleRpcReq cfg.rpcToClient cfg.handlersRpcToClient
          (fun m => "Client method not found: " ++ m)
          cfg.middlewares cfg.version now env
        (st, r.1, r.2)
      | .event => (st, clientHandleEvent cfg st env, none)
      | .hello => (st, [Effect.logDebug "hello (server->client)"], none)

/-- The server's per-connection `transport.onMessage` callback
(`runtime.ts` lines 428-530). -/
def serverOnMessage (cfg : Config) (st : ServerConnState) (now : Nat)
    (raw : Option Envelope) : ServerConnState × List Effect × Option Thrown :=
  match raw with
  | none => (st, [], none)
  | some env0 =>
    match runMiddlewares cfg.middlewares env0 .inb with
    | .error t => (st, [], some t)
    | .ok env =>
      match env.kind with
      | .rpc_req =>
        let r := handleRpcReq cfg.rpcToServer cfg.handlersRpcToServer
          (fun m => "Method not found: " ++ m)
          cfg.middlewares cfg.version now env
        (st, r.1, r.2)
      | .rpc_res =>
        let r := handleSettle st.pending env
        ({ pending := r.1 }, r.2, none)
      | .rpc_err =>
        let r := handleSettle st.pending env
        ({ pending := r.1 }, r.2, none)
      | .event => (st, serverHandleEvent cfg env, none)
      | .hello => (st, [Effect.logDebug "client hello"], none)

/-- The client runtime's `close()` (`runtime.ts` lines 338-347): close
the transport, reject every pending entry with a shutdown error, clear
its timer, empty the table. -/
def clientClose (st : ClientState) : ClientState × List Effect :=
  ({ st with pending := [] },
   Effect.closeTransport ::
     st.pending.flatMap fun kv =>
       Effect.rejectCaller kv.1 (.error "client runtime closed") ::
         (if kv.2.hasTimer then [Effect.clearTimer kv.1] else []))

/-- A server connection as returned by `createServerConnection`: the
only state the close path touches is the per-connection pending table. -/
structure ServerConn where
  pending : Pending := []
deriving DecidableEq, Repr

/-- The server connection's `close()` (`runtime.ts` line 386): only
`transport.close()`; the pending table is left as it is. -/
def serverConnClose (c : ServerConn) : ServerConn × List Effect :=
  (c, [Effect.closeTransport])

/-- The server runtime's `close()` (`runtime.ts` lines 554-559): close
every tracked connection and clear the connection set. -/
def serverRuntimeClose (conns : List ServerConn) :
    List ServerConn × List Effect :=
  ([], conns.flatMap fun c => (serverConnClose c).2)

/-- JavaScript `Set.add` on a subscription set: insertion order, no duplicates. -/
def addHandler (s : List Nat) (h : Nat) : List Nat :=
  if h ∈ s then s else s ++ [h]

/-- Embedding of `onEvent` (`runtime.ts` lines 320-333): create the channel's set on
demand and add the handler. -/
def onEvent (st : ClientState) (name : String) (h : Nat) : ClientState :=
  match mapGet st.eventHandlers name with
  | some s =>
    { st with eventHandlers := mapSet st.eventHandlers name (addHandler s h) }
  | none =>
    { st with eventHandlers := mapSet st.eventHandlers name (addHandler [] h) }

/-- The disposer returned by `onEvent`: `set?.delete(handler)`. -/
def disposeHandler (st : ClientState) (name : String) (h : Nat) :
    ClientState :=
  match mapGet st.eventHandlers name with
  | some s => { st with eventHandlers := mapSet st.eventHandlers name (s.erase h) }
  | none => st

/-! ## Supporting lemmas -/

/-- A middleware stack that leaves every envelope unchanged and never
throws; holds in particular for the default empty `middlewares` option. -/
def MwTransparent (cfg : Config) : Prop :=
  ∀ e d, runMiddlewares cfg.middlewares e d = .ok e

theorem mwTransparent_of_nil (cfg : Config) (h : cfg.middlewares = []) :
    MwTransparent cfg := by
  intro e d
  rw [h]
  rfl

theorem mapGet_mapSet_self {α : Type} (m : List (String × α)) (k : String)
    (v : α) : mapGet (mapSet m k v) k = some v := by
  induction m with
  | nil => simp [mapSet, mapGet]
  | cons kv rest ih =>
    by_cases hk : kv.1 = k
    · simp [mapSet, mapGet, hk]
    · simp [mapSet, mapGet, hk, ih]

/-- The handler ids extracted from a dispatch effect list, in order. -/
def invokedHandlers (effs : List Effect) : List Nat :=
  effs.filterMap fun e =>
    match e with
    | .invokeEvent h _ => some h
    | _ => none

theorem invokedHandlers_eventLoop (cfg : Config) (hs : List Nat)
    (q : Option Val) :
    invokedHandlers (hs.flatMap fun h =>
      Effect.invokeEvent h q ::
        (match cfg.eventHandlerBehavior h q with
         | .ok _ => []
         | .error _ => [Effect.logError "event handler error"])) = hs := by
  induction hs with
  | nil => rfl
  | cons h rest ih =>
    cases hb : cfg.eventHandlerBehavior h q <;>
      simp [invokedHandlers, hb] <;>
      simpa [invokedHandlers] using ih

/-! ## Concrete instances used by witnesses and counterexamples -/

/-- A function validator that ignores its input and returns `1`. -/
def fnOne : FnValidator := fun _ => .ok (some (.vnum 1))

/-- A Standard-Schema validator that always reports one issue. -/
def schemaRejectAll : StdSchema := ⟨"w", fun _ => .issues ["bad"]⟩

/-- A descriptor carrying both a function and a schema request validator. -/
def dBoth : RpcDescriptor :=
  { validateReq := some fnOne, schemaReq := some schemaRejectAll }

/-- A descriptor whose request validation always throws. -/
def dRejectReq : RpcDescriptor :=
  { validateReq := some (fun _ => .error (.error "bad req")) }

/-- An event descriptor whose validation always throws. -/
def edReject : EventDescriptor :=
  { validate := some (fun _ => .error (.error "bad payload")) }

/-! ## Claim theorems -/

/-- C7: for every descriptor carrying both a function validator and a
Standard-Schema validator, validation applies the function validator and
the schema is not consulted (the result does not depend on the schema
slot); the schema validator is used only when no function validator is
present, and with neither the value passes through unchanged.  Stated for
the request, response and event validation helpers. -/
theorem C7_validator_precedence (d : RpcDescriptor) (ed : EventDescriptor)
    (v : Option Val) :
    (∀ f, d.validateReq = some f →
      applyRpcRequestValidation d v = f v ∧
      ∀ s, applyRpcRequestValidation { d with schemaReq := s } v = f v) ∧
    (∀ s, d.validateReq = none → d.schemaReq = some s →
      applyRpcRequestValidation d v = validateWithStandardSchema s v) ∧
    (d.validateReq = none → d.schemaReq = none →
      applyRpcRequestValidation d v = .ok v) ∧
    (∀ f, d.validateRes = some f →
      applyRpcResponseValidation d v = f v ∧
      ∀ s, applyRpcResponseValidation { d with schemaRes := s } v = f v) ∧
    (∀ s, d.validateRes = none → d.schemaRes = some s →
      applyRpcResponseValidation d v = validateWithStandardSchema s v) ∧
    (d.validateRes = none → d.schemaRes = none →
      applyRpcResponseValidation d v = .ok v) ∧
    (∀ f, ed.validate = some f →
      applyEventValidation ed v = f v ∧
      ∀ s, applyEventValidation { ed with schema := s } v = f v) ∧
    (∀ s, ed.validate = none → ed.schema = some s →
      applyEventValidation ed v = validateWithStandardSchema s v) ∧
    (ed.validate = none → ed.schema = none →
      applyEventValidation ed v = .ok v) := by
  refine ⟨?_, ?_, ?_, ?_, ?_, ?_, ?_, ?_, ?_⟩ <;> intros <;>
    simp_all [applyRpcRequestValidation, applyRpcResponseValidation,
      applyEventValidation]

/-- Witness for C7 at a concrete descriptor carrying both validators:
the function validator's result is returned even though the schema
rejects everything. -/
theorem C7_witness :
    applyRpcRequestValidation dBoth none = .ok (some (.vnum 1)) := by
  have h := (C7_validator_precedence dBoth {} none).1 fnOne rfl
  rw [h.1]
  rfl

/-- C9: an inbound `rpc_req` whose `ch` field is absent is dropped
silently by both runtimes: no reply, no handler invocation, no state
change (no effects at all). -/
theorem C9_rpc_req_missing_ch_dropped (cfg : Config) (st : ClientState)
    (sst : ServerConnState) (now : Nat) (env : Envelope)
    (hkind : env.kind = .rpc_req) (hch : env.ch = none)
    (hmw : runMiddlewares cfg.middlewares env .inb = .ok env) :
    clientOnMessage cfg st now (some env) = (st, [], none) ∧
    serverOnMessage cfg sst now (some env) = (sst, [], none) := by
  constructor <;>
    simp [clientOnMessage, serverOnMessage, hmw, hkind, handleRpcReq, hch]

/-- Witness for C9 on a concrete `rpc_req` without a channel. -/
theorem C9_witness :
    clientOnMessage {} {} 0 (some { v := 1, ts := 0, kind := .rpc_req }) =
      ({}, [], none) ∧
    serverOnMessage {} {} 0 (some { v := 1, ts := 0, kind := .rpc_req }) =
      ({}, [], none) :=
  C9_rpc_req_missing_ch_dropped {} {} {} 0
    { v := 1, ts := 0, kind := .rpc_req } rfl rfl rfl

/-- C5: when outbound payload validation fails, `transport.send` is never
invoked for that envelope; for an RPC call the pending entry is in
addition rejected with the validation error, its timer cleared when one
was armed; for an event emit the failure is only logged. -/
theorem C5_validation_failure_never_sends (cfg : Config)
    (d : RpcDescriptor) (ed : EventDescriptor) (method id name : String)
    (now : Nat) (req payload : Option Val) (pending : Pending)
    (t t2 : Thrown)
    (hrpc : applyRpcRequestValidation d req = .error t)
    (hev : applyEventValidation ed payload = .error t2) :
    ((∀ e, Effect.send e ∉ (rpcCall cfg d method id now req pending).2) ∧
     Effect.rejectCaller id t ∈ (rpcCall cfg d method id now req pending).2 ∧
     (cfg.timeoutMs ≠ 0 →
       Effect.clearTimer id ∈ (rpcCall cfg d method id now req pending).2)) ∧
    emitEvent cfg ed name now payload = [Effect.logError "emit error"] := by
  have hcall : rpcCall cfg d method id now req pending =
      rpcCatch (mapSet pending id ⟨cfg.timeoutMs != 0⟩) id t := by
    simp [rpcCall, hrpc]
  have hget := mapGet_mapSet_self pending id (⟨cfg.timeoutMs != 0⟩ : PendingEntry)
  refine ⟨⟨?_, ?_, ?_⟩, ?_⟩
  · intro e
    rw [hcall]
    simp only [rpcCatch, hget]
    cases cfg.timeoutMs != 0 <;> simp
  · rw [hcall]
    simp only [rpcCatch, hget]
    cases cfg.timeoutMs != 0 <;> simp
  · intro h0
    rw [hcall]
    simp only [rpcCatch, hget]
    simp [bne_iff_ne, h0]
  · simp [emitEvent, hev]

/-- Witness for C5: a failing request validator and a failing event
validator at concrete inputs, with a timeout configured. -/
theorem C5_witness :
    (∀ e, Effect.send e ∉
      (rpcCall { timeoutMs := 50 } dRejectReq "add" "i1" 3 none []).2) ∧
    Effect.rejectCaller "i1" (.error "bad req") ∈
      (rpcCall { timeoutMs := 50 } dRejectReq "add" "i1" 3 none []).2 ∧
    Effect.clearTimer "i1" ∈
      (rpcCall { timeoutMs := 50 } dRejectReq "add" "i1" 3 none []).2 ∧
    emitEvent { timeoutMs := 50 } edReject "ev" 3 none =
      [Effect.logError "emit error"] := by
  have h := C5_validation_failure_never_sends { timeoutMs := 50 }
    dRejectReq edReject "add" "i1" "ev" 3 none none [] (.error "bad req")
    (.error "bad payload") rfl rfl
  exact ⟨h.1.1, h.1.2.1, h.1.2.2 (by decide), h.2⟩

/-- C3: the armed timeout callback removes the pending entry for the
call's id and rejects the caller with a timeout error naming the method;
an `rpc_res` or `rpc_err` arriving with an id that is not in the pending
table (in particular one settled by the timeout) is silently dropped by
both runtimes, leaving the table unchanged and producing no effects. -/
theorem C3_timeout_and_late_response_drop (cfg : Config)
    (pending : Pending) (id method : String) (st : ClientState)
    (sst : ServerConnState) (now : Nat) (env : Envelope) (i : String) :
    fireTimeout pending id method =
      (mapDelete pending id,
       [Effect.rejectCaller id (.error ("RPC Timeout: " ++ method))]) ∧
    ((env.kind = .rpc_res ∨ env.kind = .rpc_err) → env.id = some i →
      mapGet st.pending i = none →
      runMiddlewares cfg.middlewares env .inb = .ok env →
      clientOnMessage cfg st now (some env) = (st, [], none)) ∧
    ((env.kind = .rpc_res ∨ env.kind = .rpc_err) → env.id = some i →
      mapGet sst.pending i = none →
      runMiddlewares cfg.middlewares env .inb = .ok env →
      serverOnMessage cfg sst now (some env) = (sst, [], none)) := by
  refine ⟨rfl, ?_, ?_⟩ <;>
    · intro hkind hid hget hmw
      rcases hkind with hk | hk <;>
        by_cases hi : i = "" <;>
          simp [clientOnMessage, serverOnMessage, hmw, hk, handleSettle,
            hid, hget, hi]

/-- Witness for C3: fire the timeout on a one-entry table, then drop a
late `rpc_res` carrying the timed-out id. -/
theorem C3_witness :
    fireTimeout [("i1", ⟨true⟩)] "i1" "slow" =
      ([], [Effect.rejectCaller "i1" (.error "RPC Timeout: slow")]) ∧
    clientOnMessage {} {} 9
      (some { v := 1, ts := 9, kind := .rpc_res, id := some "i1" }) =
      ({}, [], none) := by
  have h := C3_timeout_and_late_response_drop {} [("i1", ⟨true⟩)] "i1"
    "slow" {} {} 9 { v := 1, ts := 9, kind := .rpc_res, id := some "i1" } "i1"
  refine ⟨?_, h.2.1 (Or.inl rfl) rfl rfl rfl⟩
  have h1 := h.1
  simpa [mapDelete] using h1

/-- Counterexample for C1: a server connection with an outstanding
pending entry.  Its `close()` is `transport.close()` alone, and the
server runtime's `close()` over that connection produces only the
transport-close effect — the pending table keeps its entry and no caller
is rejected, contradicting the claim for the server side. -/
theorem C1_counterexample :
    (serverConnClose ⟨[("a", ⟨false⟩)]⟩).1.pending = [("a", ⟨false⟩)] ∧
    (serverConnClose ⟨[("a", ⟨false⟩)]⟩).1.pending ≠ [] ∧
    (serverRuntimeClose [⟨[("a", ⟨false⟩)]⟩]).2 = [Effect.closeTransport] :=
  ⟨rfl, List.cons_ne_nil _ _, rfl⟩

/-- C1 (amended): the client runtime's `close()` empties its pending
table and rejects every outstanding caller with the shutdown error; the
server connection's `close()` only closes the transport and leaves the
pending table untouched, and the server runtime's `close()` emits nothing
but transport closes — per-connection pending entries are neither removed
nor rejected. -/
theorem C1_close_drains_client_only (st : ClientState) (c : ServerConn)
    (conns : List ServerConn) (id : String) (e : PendingEntry)
    (hmem : (id, e) ∈ st.pending) :
    (clientClose st).1.pending = [] ∧
    Effect.rejectCaller id (.error "client runtime closed") ∈
      (clientClose st).2 ∧
    serverConnClose c = (c, [Effect.closeTransport]) ∧
    (serverRuntimeClose conns).1 = [] ∧
    (∀ eff, eff ∈ (serverRuntimeClose conns).2 →
      eff = Effect.closeTransport) := by
  refine ⟨rfl, ?_, rfl, rfl, ?_⟩
  · simp only [clientClose, List.mem_cons, List.mem_flatMap]
    exact Or.inr ⟨(id, e), hmem, Or.inl rfl⟩
  · intro eff heff
    simp only [serverRuntimeClose, serverConnClose, List.mem_flatMap] at heff
    obtain ⟨c2, _, hm⟩ := heff
    simpa using hm

/-- Witness for C1's amended theorem on a one-entry client table. -/
theorem C1_witness :
    (clientClose { pending := [("a", ⟨true⟩)] }).1.pending = [] ∧
    Effect.rejectCaller "a" (.error "client runtime closed") ∈
      (clientClose { pending := [("a", ⟨true⟩)] }).2 := by
  have h := C1_close_drains_client_only { pending := [("a", ⟨true⟩)] }
    ⟨[]⟩ [] "a" ⟨true⟩ (List.mem_singleton.mpr rfl)
  exact ⟨h.1, h.2.1⟩

/-- A middleware that always throws. -/
def mwThrow : Middleware := fun _ _ => .error (.error "mw boom")

/-- A configuration whose only middleware always throws. -/
def cfgMwThrow : Config := { middlewares := [mwThrow] }

/-- A client state with one pending entry awaiting id "a". -/
def stPendingA : ClientState := { pending := [("a", ⟨false⟩)] }

/-- An `rpc_res` envelope answering id "a". -/
def envResA : Envelope := { v := 1, ts := 0, kind := .rpc_res, id := some "a" }

/-- Counterexample for C2: with a throwing inbound middleware and an
`rpc_res` envelope for an outstanding id, the dispatch produces no
effects at all — in particular no log entry — and the middleware's error
escapes the message callback; the claim's "the error is logged" is false
(the envelope is indeed discarded without settling the pending entry). -/
theorem C2_counterexample :
    clientOnMessage cfgMwThrow stPendingA 0 (some envResA) =
      (stPendingA, [], some (.error "mw boom")) := by
  rfl

/-- C2 (amended): an error thrown by inbound middleware is not caught by
the runtime: the envelope is discarded with no pending-entry settlement,
no RPC handler and no event handler invoked, no log emitted, and the
error propagates out of the `onMessage` callback, for both runtimes. -/
theorem C2_inbound_middleware_throw_discards (cfg : Config)
    (st : ClientState) (sst : ServerConnState) (now : Nat)
    (env : Envelope) (t : Thrown)
    (hmw : runMiddlewares cfg.middlewares env .inb = .error t) :
    clientOnMessage cfg st now (some env) = (st, [], some t) ∧
    serverOnMessage cfg sst now (some env) = (sst, [], some t) := by
  constructor <;> simp [clientOnMessage, serverOnMessage, hmw]

/-- Witness for C2's amended theorem at the counterexample's input. -/
theorem C2_witness :
    clientOnMessage cfgMwThrow stPendingA 0 (some envResA) =
      (stPendingA, [], some (.error "mw boom")) ∧
    serverOnMessage cfgMwThrow {} 0 (some envResA) =
      ({}, [], some (.error "mw boom")) :=
  C2_inbound_middleware_throw_discards cfgMwThrow stPendingA {} 0 envResA
    (.error "mw boom") rfl

/-- Shape of the `rpc_err` reply envelopes the dispatch constructs; a
statement-level abbreviation combining `makeBaseEnvelope` with the field
assignments at the reply sites. -/
def errReplyEnv (version now : Nat) (id : Option String) (method : String)
    (msg : String) (code : Option String) : Envelope :=
  { v := version, ts := now, kind := .rpc_err, id := id, ch := some method,
    m := some msg, code := code }

/-- C4: an inbound `rpc_req` whose `ch` names a method without a
descriptor in the handler-direction contract map, or without a registered
implementation, is answered with an `rpc_err` carrying code "NOT_FOUND"
and the incoming request's id, on the client (`rpcToClient` direction)
and on the server (`rpcToServer` direction) alike.  Middlewares are
assumed transparent (the default configuration has none). -/
theorem C4_unknown_method_not_found (cfg : Config) (now : Nat)
    (env : Envelope) (method : String)
    (hmw : MwTransparent cfg) (hkind : env.kind = .rpc_req)
    (hch : env.ch = some method) (hne : method ≠ "") :
    (∀ st : ClientState,
      (mapGet cfg.rpcToClient method = none ∨
        mapGet cfg.handlersRpcToClient method = none) →
      clientOnMessage cfg st now (some env) =
        (st, [Effect.send (errReplyEnv cfg.version now env.id method
          ("Client method not found: " ++ method) (some "NOT_FOUND"))],
          none)) ∧
    (∀ sst : ServerConnState,
      (mapGet cfg.rpcToServer method = none ∨
        mapGet cfg.handlersRpcToServer method = none) →
      serverOnMessage cfg sst now (some env) =
        (sst, [Effect.send (errReplyEnv cfg.version now env.id method
          ("Method not found: " ++ method) (some "NOT_FOUND"))],
          none)) := by
  constructor
  · intro st hmiss
    have hbody : handleRpcReq cfg.rpcToClient cfg.handlersRpcToClient
        (fun m => "Client method not found: " ++ m)
        cfg.middlewares cfg.version now env =
        ([Effect.send (errReplyEnv cfg.version now env.id method
          ("Client method not found: " ++ method) (some "NOT_FOUND"))],
          none) := by
      rcases hmiss with hm | hm <;>
        · cases h1 : mapGet cfg.rpcToClient method <;>
            cases h2 : mapGet cfg.handlersRpcToClient method <;>
              simp_all [handleRpcReq, hch, hne, makeBaseEnvelope,
                errReplyEnv, hmw _ _]
    simp [clientOnMessage, hmw _ _, hkind, hbody]
  · intro sst hmiss
    have hbody : handleRpcReq cfg.rpcToServer cfg.handlersRpcToServer
        (fun m => "Method not found: " ++ m)
        cfg.middlewares cfg.version now env =
        ([Effect.send (errReplyEnv cfg.version now env.id method
          ("Method not found: " ++ method) (some "NOT_FOUND"))],
          none) := by
      rcases hmiss with hm | hm <;>
        · cases h1 : mapGet cfg.rpcToServer method <;>
            cases h2 : mapGet cfg.handlersRpcToServer method <;>
              simp_all [handleRpcReq, hch, hne, makeBaseEnvelope,
                errReplyEnv, hmw _ _]
    simp [serverOnMessage, hmw _ _, hkind, hbody]

/-- The inbound `rpc_req` for an unknown method used by C4's witness. -/
def envReqMissing : Envelope :=
  { v := 1, ts := 2, kind := .rpc_req, id := some "x1", ch := some "missing" }

/-- Witness for C4: an empty contract, a request for "missing" with id
"x1", answered NOT_FOUND on both runtimes. -/
theorem C4_witness :
    clientOnMessage {} {} 4 (some envReqMissing) =
      ({}, [Effect.send (errReplyEnv 1 4 (some "x1") "missing"
        "Client method not found: missing" (some "NOT_FOUND"))], none) ∧
    serverOnMessage {} {} 4 (some envReqMissing) =
      ({}, [Effect.send (errReplyEnv 1 4 (some "x1") "missing"
        "Method not found: missing" (some "NOT_FOUND"))], none) := by
  have h := C4_unknown_method_not_found {} 4 envReqMissing "missing"
    (mwTransparent_of_nil {} rfl) rfl rfl (by decide)
  exact ⟨h.1 {} (Or.inl rfl), h.2 {} (Or.inl rfl)⟩

/-- The request-validation, handler, response-validation chain of the
inbound `rpc_req` `try` block, as a single fallible computation. -/
def rpcPipeline (d : RpcDescriptor) (impl : RpcImpl) (p : Option Val) :
    Except Thrown (Option Val) :=
  match applyRpcRequestValidation d p with
  | .error t => .error t
  | .ok reqPayload =>
    match impl reqPayload with
    | .error t => .error t
    | .ok res => applyRpcResponseValidation d res

/-- C10: when the handler or either validation of an inbound `rpc_req`
throws `t`, the reply sent is an `rpc_err` with no `code` field whose `m`
is the thrown `Error`'s message, the literal "RPC Error" when the thrown
value is not an `Error` instance; the incoming id and channel are echoed.
Both runtimes.  Middlewares are assumed transparent. -/
theorem C10_handler_error_reply_shape (cfg : Config) (now : Nat)
    (env : Envelope) (method : String) (d : RpcDescriptor) (impl : RpcImpl)
    (t : Thrown) (hmw : MwTransparent cfg) (hkind : env.kind = .rpc_req)
    (hch : env.ch = some method) (hne : method ≠ "")
    (hpipe : rpcPipeline d impl env.p = .error t) :
    (∀ st : ClientState,
      mapGet cfg.rpcToClient method = some d →
      mapGet cfg.handlersRpcToClient method = some impl →
      (clientOnMessage cfg st now (some env)).2.1.getLast? =
        some (Effect.send
          (errReplyEnv cfg.version now env.id method (errMessage t) none))) ∧
    (∀ sst : ServerConnState,
      mapGet cfg.rpcToServer method = some d →
      mapGet cfg.handlersRpcToServer method = some impl →
      (serverOnMessage cfg sst now (some env)).2.1.getLast? =
        some (Effect.send
          (errReplyEnv cfg.version now env.id method (errMessage t) none))) := by
  have hserve : rpcServe d impl cfg.middlewares cfg.version now env method
      |>.1.getLast? =
      some (Effect.send
        (errReplyEnv cfg.version now env.id method (errMessage t) none)) := by
    unfold rpcPipeline at hpipe
    unfold rpcServe
    cases hv1 : applyRpcRequestValidation d env.p with
    | error t1 =>
      rw [hv1] at hpipe
      cases hpipe
      simp [rpcErrReply, hmw _ _, makeBaseEnvelope, errReplyEnv]
    | ok reqPayload =>
      rw [hv1] at hpipe
      dsimp only at hpipe ⊢
      cases hi : impl reqPayload with
      | error t1 =>
        rw [hi] at hpipe
        cases hpipe
        simp [rpcErrReply, hmw _ _, makeBaseEnvelope, errReplyEnv]
      | ok res =>
        rw [hi] at hpipe
        dsimp only at hpipe ⊢
        cases hv2 : applyRpcResponseValidation d res with
        | error t1 =>
          rw [hv2] at hpipe
          cases hpipe
          simp [rpcErrReply, hmw _ _, makeBaseEnvelope, errReplyEnv]
        | ok resPayload =>
          rw [hv2] at hpipe
          cases hpipe
  constructor
  · intro st hd hi
    simp [clientOnMessage, hmw _ _, hkind, handleRpcReq, hch, hne, hd, hi,
      hserve]
  · intro sst hd hi
    simp [serverOnMessage, hmw _ _, hkind, handleRpcReq, hch, hne, hd, hi,
      hserve]

/-- An RPC handler implementation that throws a non-Error value. -/
def implThrowRaw : RpcImpl := fun _ => .error (.nonError (.vnum 42))

/-- Configuration registering `boom` with a throwing implementation. -/
def cfgBoom : Config :=
  { rpcToServer := [("boom", {})],
    handlersRpcToServer := [("boom", implThrowRaw)] }

/-- The inbound `rpc_req` for `boom` used by C10's witness. -/
def envReqBoom : Envelope :=
  { v := 1, ts := 2, kind := .rpc_req, id := some "b1", ch := some "boom" }

/-- Witness for C10: a handler throwing the number 42 (not an `Error`)
is answered by an `rpc_err` with no code and the fallback message. -/
theorem C10_witness :
    (serverOnMessage cfgBoom {} 5 (some envReqBoom)).2.1.getLast? =
      some (Effect.send (errReplyEnv 1 5 (some "b1") "boom" "RPC Error"
        none)) := by
  have h := C10_handler_error_reply_shape cfgBoom 5 envReqBoom "boom" {}
    implThrowRaw (.nonError (.vnum 42)) (mwTransparent_of_nil cfgBoom rfl)
    rfl rfl (by decide) rfl
  exact h.2 {} rfl rfl

/-- A configuration with one client-side method "notify" whose handler
returns no payload. -/
def cfgNotify : Config :=
  { rpcToClient := [("notify", {})],
    handlersRpcToClient := [("notify", fun _ => .ok none)] }

/-- An inbound `rpc_req` for "notify" that carries NO id. -/
def envReqNoId : Envelope :=
  { v := 1, ts := 0, kind := .rpc_req, ch := some "notify" }

/-- The reply the runtime hands to `transport.send` for `envReqNoId`. -/
def envResNoId : Envelope :=
  { v := 1, ts := 7, kind := .rpc_res, id := none, ch := some "notify" }

/-- Counterexample for C6: an inbound `rpc_req` without an id (sent by a
non-conforming peer) is served, and the runtime hands `transport.send` an
`rpc_res` whose `id` field is absent — an envelope of a kind that the
claim requires to carry an id. -/
theorem C6_counterexample :
    (clientOnMessage cfgNotify {} 7 (some envReqNoId)).2.1 =
      [Effect.invokeRpc "notify" none, Effect.send envResNoId] ∧
    envResNoId.kind = Kind.rpc_res ∧ envResNoId.id = none := by
  refine ⟨?_, rfl, rfl⟩
  rfl

/-- The `kind`-required field shape of C6: correlation id and channel on
the RPC kinds, channel on events, neither on hello. -/
def kindFieldsOk (e : Envelope) : Prop :=
  match e.kind with
  | .rpc_req => e.id ≠ none ∧ e.ch ≠ none
  | .rpc_res => e.id ≠ none ∧ e.ch ≠ none
  | .rpc_err => e.id ≠ none ∧ e.ch ≠ none
  | .event => e.ch ≠ none
  | .hello => e.id = none ∧ e.ch = none

/-- The wire invariant of C6 for an envelope handed to `transport.send`
by an operation whose clock reading is `now`. -/
def wireOk (cfg : Config) (now : Nat) (e : Envelope) : Prop :=
  e.v = cfg.version ∧ e.ts ≤ now ∧ kindFieldsOk e

theorem rpcCatch_no_send (pending : Pending) (id : String) (t : Thrown)
    (e : Envelope) : Effect.send e ∉ (rpcCatch pending id t).2 := by
  unfold rpcCatch
  cases hg : mapGet pending id with
  | none => simp
  | some entry => cases entry.hasTimer <;> simp

theorem eventLoop_no_send (cfg : Config) (q : Option Val) (hs : List Nat)
    (e : Envelope) :
    Effect.send e ∉ (hs.flatMap fun h =>
      Effect.invokeEvent h q ::
        (match cfg.eventHandlerBehavior h q with
         | .ok _ => []
         | .error _ => [Effect.logError "event handler error"])) := by
  induction hs with
  | nil => simp
  | cons h rest ih =>
    cases hb : cfg.eventHandlerBehavior h q <;> simp [hb, ih]

theorem handleSettle_no_send (pending : Pending) (env : Envelope)
    (e : Envelope) : Effect.send e ∉ (handleSettle pending env).2 := by
  unfold handleSettle
  repeat' split
  all_goals simp

theorem clientHandleEvent_no_send (cfg : Config) (st : ClientState)
    (env : Envelope) (e : Envelope) :
    Effect.send e ∉ clientHandleEvent cfg st env := by
  unfold clientHandleEvent
  cases hch : env.ch with
  | none => simp
  | some c =>
    dsimp only
    by_cases hc : c = ""
    · simp [hc]
    · rw [if_neg hc]
      cases hg : mapGet st.eventHandlers c with
      | none => simp
      | some hs =>
        dsimp only
        cases hp : eventPayload cfg.events c env.p with
        | error t => simp
        | ok q => exact eventLoop_no_send cfg q hs e

theorem serverHandleEvent_no_send (cfg : Config) (env : Envelope)
    (e : Envelope) : Effect.send e ∉ serverHandleEvent cfg env := by
  unfold serverHandleEvent
  repeat' split
  all_goals simp

theorem rpcErrReply_sends_wireOk (cfg : Config) (hmw : MwTransparent cfg)
    (now : Nat) (env : Envelope) (method : String) (t : Thrown)
    (pre : List Effect) (i : String) (hid : env.id = some i)
    (hpre : ∀ e2 : Envelope, Effect.send e2 ∉ pre) (e : Envelope)
    (hmem : Effect.send e ∈
      (rpcErrReply cfg.middlewares cfg.version now env method t pre).1) :
    wireOk cfg now e := by
  unfold rpcErrReply at hmem
  dsimp only at hmem
  rw [hmw _ _] at hmem
  simp only [List.mem_append, List.mem_singleton] at hmem
  rcases hmem with hm | hm
  · exact absurd hm (hpre e)
  · cases hm
    simp [wireOk, kindFieldsOk, makeBaseEnvelope, hid]

theorem rpcServe_sends_wireOk (cfg : Config) (hmw : MwTransparent cfg)
    (d : RpcDescriptor) (impl : RpcImpl) (now : Nat) (env : Envelope)
    (method : String) (i : String) (hid : env.id = some i) (e : Envelope)
    (hmem : Effect.send e ∈
      (rpcServe d impl cfg.middlewares cfg.version now env method).1) :
    wireOk cfg now e := by
  unfold rpcServe at hmem
  cases hv1 : applyRpcRequestValidation d env.p with
  | error t =>
    rw [hv1] at hmem
    dsimp only at hmem
    exact rpcErrReply_sends_wireOk cfg hmw now env method t [] i hid
      (by simp) e hmem
  | ok reqPayload =>
    rw [hv1] at hmem
    dsimp only at hmem
    cases hi : impl reqPayload with
    | error t =>
      rw [hi] at hmem
      dsimp only at hmem
      exact rpcErrReply_sends_wireOk cfg hmw now env method t
        [Effect.invokeRpc method reqPayload] i hid (by simp) e hmem
    | ok res =>
      rw [hi] at hmem
      dsimp only at hmem
      cases hv2 : applyRpcResponseValidation d res with
      | error t =>
        rw [hv2] at hmem
        dsimp only at hmem
        exact rpcErrReply_sends_wireOk cfg hmw now env method t
          [Effect.invokeRpc method reqPayload] i hid (by simp) e hmem
      | ok resPayload =>
        rw [hv2] at hmem
        dsimp only at hmem
        rw [hmw _ _] at hmem
        simp only [List.mem_cons, List.mem_singleton, List.not_mem_nil,
          or_false] at hmem
        rcases hmem with hm | hm
        · cases hm
        · cases hm
          simp [wireOk, kindFieldsOk, makeBaseEnvelope, hid]

theorem handleRpcReq_sends_wireOk (cfg : Config) (hmw : MwTransparent cfg)
    (defs : List (String × RpcDescriptor))
    (impls : List (String × RpcImpl)) (nf : String → String) (now : Nat)
    (env : Envelope) (i : String) (hid : env.id = some i) (e : Envelope)
    (hmem : Effect.send e ∈
      (handleRpcReq defs impls nf cfg.middlewares cfg.version now env).1) :
    wireOk cfg now e := by
  unfold handleRpcReq at hmem
  cases hch : env.ch with
  | none => rw [hch] at hmem; cases hmem
  | some method =>
    rw [hch] at hmem
    dsimp only at hmem
    by_cases hne : method = ""
    · rw [if_pos hne] at hmem; cases hmem
    · rw [if_neg hne] at hmem
      cases h1 : mapGet defs method with
      | some dd =>
        cases h2 : mapGet impls method with
        | some impl =>
          rw [h1, h2] at hmem
          dsimp only at hmem
          exact rpcServe_sends_wireOk cfg hmw dd impl now env method i hid
            e hmem
        | none =>
          rw [h1, h2] at hmem
          dsimp only at hmem
          rw [hmw _ _] at hmem
          simp only [List.mem_singleton] at hmem
          cases hmem
          simp [wireOk, kindFieldsOk, makeBaseEnvelope, hid]
      | none =>
        rw [h1] at hmem
        cases h2 : mapGet impls method <;>
          · rw [h2] at hmem
            dsimp only at hmem
            rw [hmw _ _] at hmem
            simp only [List.mem_singleton] at hmem
            cases hmem
            simp [wireOk, kindFieldsOk, makeBaseEnvelope, hid]

/-- C6 (amended): provided middlewares leave envelopes unchanged (the
default configuration has none) and every inbound `rpc_req` carries an
id, every envelope any runtime operation hands to `transport.send` has
`v` equal to the configured version, a `ts` equal to the operation's
clock reading (hence not in the future of the send), and the fields its
kind requires: id and ch on the RPC kinds, ch on events, neither on
hello.  Without the id proviso the claim fails: see the counterexample,
where an id-less inbound `rpc_req` is answered by an id-less `rpc_res`. -/
theorem C6_wire_invariant (cfg : Config) (now : Nat)
    (hmw : MwTransparent cfg) :
    (∀ feat e, Effect.send e ∈ sendHello cfg now feat →
      wireOk cfg now e) ∧
    (∀ d method id req pending e,
      Effect.send e ∈ (rpcCall cfg d method id now req pending).2 →
      wireOk cfg now e) ∧
    (∀ ed name p e, Effect.send e ∈ emitEvent cfg ed name now p →
      wireOk cfg now e) ∧
    (∀ st env e, env.id ≠ none →
      Effect.send e ∈ (clientOnMessage cfg st now (some env)).2.1 →
      wireOk cfg now e) ∧
    (∀ sst env e, env.id ≠ none →
      Effect.send e ∈ (serverOnMessage cfg sst now (some env)).2.1 →
      wireOk cfg now e) := by
  refine ⟨?_, ?_, ?_, ?_, ?_⟩
  · intro feat e hmem
    simp only [sendHello, List.mem_singleton] at hmem
    cases hmem
    simp [wireOk, kindFieldsOk, makeBaseEnvelope]
  · intro d method id req pending e hmem
    unfold rpcCall at hmem
    dsimp only at hmem
    cases hv : applyRpcRequestValidation d req with
    | error t =>
      rw [hv] at hmem
      dsimp only at hmem
      exact absurd hmem (rpcCatch_no_send _ id t e)
    | ok validated =>
      rw [hv] at hmem
      dsimp only at hmem
      rw [hmw _ _] at hmem
      simp only [List.mem_singleton] at hmem
      cases hmem
      simp [wireOk, kindFieldsOk, makeBaseEnvelope]
  · intro ed name p e hmem
    unfold emitEvent at hmem
    cases hv : applyEventValidation ed p with
    | error t =>
      rw [hv] at hmem
      simp at hmem
    | ok validated =>
      rw [hv] at hmem
      dsimp only at hmem
      rw [hmw _ _] at hmem
      simp only [List.mem_singleton] at hmem
      cases hmem
      simp [wireOk, kindFieldsOk, makeBaseEnvelope]
  · intro st env e hid hmem
    obtain ⟨i, hi⟩ := Option.ne_none_iff_exists'.mp hid
    unfold clientOnMessage at hmem
    dsimp only at hmem
    rw [hmw _ _] at hmem
    dsimp only at hmem
    cases hk : env.kind <;> rw [hk] at hmem <;> dsimp only at hmem
    · exact handleRpcReq_sends_wireOk cfg hmw cfg.rpcToClient
        cfg.handlersRpcToClient _ now env i hi e hmem
    · exact absurd hmem (handleSettle_no_send st.pending env e)
    · exact absurd hmem (handleSettle_no_send st.pending env e)
    · exact absurd hmem (clientHandleEvent_no_send cfg st env e)
    · simp at hmem
  · intro sst env e hid hmem
    obtain ⟨i, hi⟩ := Option.ne_none_iff_exists'.mp hid
    unfold serverOnMessage at hmem
    dsimp only at hmem
    rw [hmw _ _] at hmem
    dsimp only at hmem
    cases hk : env.kind <;> rw [hk] at hmem <;> dsimp only at hmem
    · exact handleRpcReq_sends_wireOk cfg hmw cfg.rpcToServer
        cfg.handlersRpcToServer _ now env i hi e hmem
    · exact absurd hmem (handleSettle_no_send sst.pending env e)
    · exact absurd hmem (handleSettle_no_send sst.pending env e)
    · exact absurd hmem (serverHandleEvent_no_send cfg env e)
    · simp at hmem

/-- Witness for C6's amended theorem: the hello envelope of the default
configuration satisfies the wire invariant. -/
theorem C6_witness :
    wireOk {} 3 { v := 1, ts := 3, kind := .hello, feat := none } := by
  have h := (C6_wire_invariant {} 3 (mwTransparent_of_nil {} rfl)).1 none
    { v := 1, ts := 3, kind := .hello, feat := none }
  exact h (by simp [sendHello, makeBaseEnvelope])

/-- C8: dispatching an inbound event on the client invokes exactly the
handlers subscribed to the channel at dispatch time, each exactly once,
sequentially in registration (insertion) order; this holds for every
handler behaviour, so a handler that throws does not prevent the
remaining handlers from running (the throw is logged and contained).  A
handler that is not in the subscription set — in particular one whose
disposer ran, which removes it from the stored set — is not invoked;
subscription sets stay duplicate-free under subscribe and dispose. -/
theorem C8_event_dispatch (cfg : Config) (st : ClientState) (now : Nat)
    (env : Envelope) (c : String) (s : List Nat) (q : Option Val)
    (hkind : env.kind = .event) (hch : env.ch = some c) (hc : c ≠ "")
    (hmw : runMiddlewares cfg.middlewares env .inb = .ok env)
    (hs : mapGet st.eventHandlers c = some s)
    (hq : eventPayload cfg.events c env.p = .ok q) :
    clientOnMessage cfg st now (some env) =
      (st, clientHandleEvent cfg st env, none) ∧
    invokedHandlers (clientHandleEvent cfg st env) = s ∧
    (s.Nodup → ∀ h, h ∈ s →
      (invokedHandlers (clientHandleEvent cfg st env)).count h = 1) ∧
    (∀ h, h ∉ s →
      Effect.invokeEvent h q ∉ clientHandleEvent cfg st env) ∧
    (∀ s2 h, List.Nodup s2 →
      (addHandler s2 h).Nodup ∧ (s2.erase h).Nodup ∧ h ∉ s2.erase h) ∧
    (∀ st2 s2 h, mapGet st2.eventHandlers c = some s2 →
      mapGet (disposeHandler st2 c h).eventHandlers c =
        some (s2.erase h)) := by
  have hbody : clientHandleEvent cfg st env =
      (s.flatMap fun h =>
        Effect.invokeEvent h q ::
          (match cfg.eventHandlerBehavior h q with
           | .ok _ => []
           | .error _ => [Effect.logError "event handler error"])) := by
    simp [clientHandleEvent, hch, hc, hs, hq]
  have hinv : invokedHandlers (clientHandleEvent cfg st env) = s := by
    rw [hbody]
    exact invokedHandlers_eventLoop cfg s q
  refine ⟨?_, hinv, ?_, ?_, ?_, ?_⟩
  · simp [clientOnMessage, hmw, hkind]
  · intro hnd h hm
    rw [hinv]
    exact List.count_eq_one_of_mem hnd hm
  · intro h hm hmem
    refine hm ?_
    rw [← hinv]
    exact List.mem_filterMap.mpr ⟨Effect.invokeEvent h q, hmem, rfl⟩
  · intro s2 h hnd
    refine ⟨?_, hnd.erase h, hnd.not_mem_erase⟩
    unfold addHandler
    by_cases hm : h ∈ s2
    · simpa [hm] using hnd
    · simp [hm, List.nodup_append, hnd]
  · intro st2 s2 h hg
    unfold disposeHandler
    rw [hg]
    exact mapGet_mapSet_self st2.eventHandlers c (s2.erase h)

/-- A client state with handlers 1 and 2 subscribed to channel "msg". -/
def stTwoSubs : ClientState := { eventHandlers := [("msg", [1, 2])] }

/-- An inbound event envelope on channel "msg". -/
def envMsg : Envelope := { v := 1, ts := 0, kind := .event, ch := some "msg" }

/-- Witness for C8: with handlers 1 and 2 subscribed, both are invoked
in order; the unsubscribed handler 3 is not invoked. -/
theorem C8_witness :
    invokedHandlers (clientHandleEvent {} stTwoSubs envMsg) = [1, 2] ∧
    Effect.invokeEvent 3 none ∉ clientHandleEvent {} stTwoSubs envMsg := by
  have h := C8_event_dispatch {} stTwoSubs 0 envMsg "msg" [1, 2] none rfl
    rfl (by decide) rfl rfl rfl
  exact ⟨h.2.1, h.2.2.2.1 3 (by decide)⟩

end Kataribe
